import Mathlib

/-!
# Verification of the chat-tui core

A shallow embedding of the chat-tui repository's core, with theorems about
the claims of its specification.

The embedding covers:
* the streaming protocol client `ChatStream` of `internal/llm/openai.go`
  (SSE line parsing, `StreamChunk` emission and `RequestStats` accounting);
* the conversation state machine `ChatModel.Update` and the slash-command
  dispatcher `ChatModel.handleCommand` of `internal/ui/chat.go`;
* the command parsing helpers of `internal/commands/slash.go`.

Modelling conventions:
* Go `time.Time` values and `time.Duration`s are integers (Go stores both
  with integer nanosecond precision); each call of `time.Now()` inside the
  stream goroutine consumes the next index of a clock function
  `now : ℕ → ℤ` (`now 0` is the `StartTime` taken at dispatch).
* The two `float64` speed statistics are modelled exactly over `ℚ`.
* External library calls (`encoding/json` decoding, `strconv.ParseFloat`,
  `fmt.Sprintf "%.2f"`, the system clipboard) are parameters of the model.
* Fields of `RequestStats` that the source assigns only conditionally are
  `Option`s: `none` means the assignment never executed.
-/

/-!
## String primitives

The Go code manipulates strings through `bytes`/`strings` library calls.
They are modelled here as structurally recursive functions on the
character list of a `String`, so that every definition evaluates inside
the kernel (`decide`/`rfl`) on concrete inputs.
-/

/-- `bytes.TrimSpace` / `strings.TrimSpace`: strip leading and trailing
whitespace. -/
def goTrimSpace (s : String) : String :=
  ⟨((s.data.dropWhile Char.isWhitespace).reverse.dropWhile Char.isWhitespace).reverse⟩

/-- `bytes.HasPrefix` / `strings.HasPrefix`. -/
def goHasPrefix (s p : String) : Bool :=
  p.data.isPrefixOf s.data

/-- `bytes.TrimPrefix` for a prefix already known to be present: drop its
characters (the payload marker is ASCII, so bytes and characters agree). -/
def goDrop (s : String) (n : ℕ) : String :=
  ⟨s.data.drop n⟩

/-- `strings.HasSuffix`. -/
def goHasSuffix (s p : String) : Bool :=
  p.data.isSuffixOf s.data

/-- `strings.TrimSuffix`: remove one trailing copy of `suf` if present. -/
def goTrimSuffix (s suf : String) : String :=
  if goHasSuffix s suf then ⟨s.data.take (s.data.length - suf.data.length)⟩ else s

/-- Accumulator loop of `strings.Fields`. -/
def goFieldsAux : List Char → List Char → List String
  | [], cur => if cur.isEmpty then [] else [⟨cur.reverse⟩]
  | c :: cs, cur =>
    if c.isWhitespace then
      if cur.isEmpty then goFieldsAux cs [] else ⟨cur.reverse⟩ :: goFieldsAux cs []
    else goFieldsAux cs (c :: cur)

/-- `strings.Fields`: split around runs of whitespace, no empty fields. -/
def goFields (s : String) : List String :=
  goFieldsAux s.data []

/-- `strings.ToLower`. -/
def goToLower (s : String) : String :=
  ⟨s.data.map Char.toLower⟩

/-- `strings.Join` with a separator. -/
def goJoin (sep : String) : List String → String
  | [] => ""
  | x :: xs => xs.foldl (fun acc y => acc ++ sep ++ y) x

/-- `llm.Message` of `internal/llm/client.go`. -/
structure Message where
  role : String
  content : String
deriving Repr, DecidableEq

/-- `llm.StreamChunk` of `internal/llm/client.go`: a struct with a content
string, a done flag and an error field (`none` = Go `nil`). -/
structure StreamChunk where
  content : String := ""
  done : Bool := false
  error : Option String := none
deriving Repr, DecidableEq

/-- `llm.RequestStats` of `internal/llm/client.go`.  Times and durations
are integers; conditionally-assigned fields are `Option`s (`none` = the
zero value, i.e. the assignment in the source never ran). -/
structure RequestStats where
  startTime : ℤ
  endTime : Option ℤ := none
  firstTokenTime : Option ℤ := none
  model : String := ""
  inputTokens : ℕ := 0
  outputTokens : ℕ := 0
  totalTokens : ℕ := 0
  tokensPerSec : Option ℚ := none
  timeToFirstToken : Option ℤ := none
  generationTime : Option ℤ := none
  postFirstTokenSpeed : Option ℚ := none
  latency : Option ℤ := none
  httpStatus : ℕ := 0
deriving Repr, DecidableEq

/-- The anonymous struct decoded from an SSE payload in `ChatStream`:
`{choices: [{delta: {content: string}}]}`. -/
structure StreamDelta where
  content : String
deriving Repr, DecidableEq

structure StreamChoice where
  delta : StreamDelta
deriving Repr, DecidableEq

structure StreamResp where
  choices : List StreamChoice
deriving Repr, DecidableEq

/-- How the response body ends after its complete lines: clean EOF, or a
mid-stream transport read error (the non-`io.EOF` case of `ReadBytes`). -/
inductive ReadEnding where
  | eof : ReadEnding
  | readErr (e : String) : ReadEnding
deriving Repr, DecidableEq

/-- The local state of the `ChatStream` reader goroutine: `tokenCount` and
`firstTokenReceived` are the loop locals, `tick` is the index of the next
`time.Now()` call, and `ttftAssignments` is a ghost counter of how many
times the first-token assignment block executed. -/
structure LoopState where
  tokenCount : ℕ := 0
  firstTokenReceived : Bool := false
  tick : ℕ := 1
  ttftAssignments : ℕ := 0
  stats : RequestStats
deriving Repr, DecidableEq

/-- The chunk `chunks <- StreamChunk{Done: true}`. -/
def doneChunk : StreamChunk := { done := true }

/-- The chunk `chunks <- StreamChunk{Error: ...}` sent on a read error. -/
def errChunk (e : String) : StreamChunk := { error := some e }

/-- What one trimmed SSE line makes the `ChatStream` loop do, following the
source order exactly: blank lines and lines without the `"data: "` marker
are skipped (`continue`), the `[DONE]` payload ends the stream, an
undecodable payload or one without a non-empty first-choice delta is
skipped, and any other payload carries content. -/
inductive LineKind where
  | skip : LineKind
  | sentinel : LineKind
  | content (s : String) : LineKind
deriving Repr, DecidableEq

/-- Classification of a raw line by the `ChatStream` loop body
(`openai.go` lines 493–539), with `d` standing for `json.Unmarshal`. -/
def classifyLine (d : String → Option StreamResp) (l : String) : LineKind :=
  let line := goTrimSpace l
  if line.data.isEmpty then .skip
  else if !(goHasPrefix line "data: ") then .skip
  else if goDrop line 6 == "[DONE]" then .sentinel
  else
    match d (goDrop line 6) with
    | none => .skip
    | some resp =>
      match resp.choices with
      | [] => .skip
      | ch :: _ => if ch.delta.content == "" then .skip else .content ch.delta.content

/-- The first-token bookkeeping done for a payload with non-empty content
(`openai.go` lines 539–548): bump `tokenCount`; on the first token record
`FirstTokenTime = now` and `TimeToFirstToken = FirstTokenTime - StartTime`. -/
def contentStep (now : ℕ → ℤ) (st : LoopState) : LoopState :=
  let st := { st with tokenCount := st.tokenCount + 1 }
  if st.firstTokenReceived then st
  else
    { st with
      stats := { st.stats with
        firstTokenTime := some (now st.tick),
        timeToFirstToken := some (now st.tick - st.stats.startTime) },
      firstTokenReceived := true,
      ttftAssignments := st.ttftAssignments + 1,
      tick := st.tick + 1 }

/-- The finalization block duplicated at the `[DONE]` and end-of-body sites
of `ChatStream` (`openai.go` lines 473–488 and 507–522). -/
def finalizeStats (now : ℕ → ℤ) (st : LoopState) : LoopState :=
  let endT := now st.tick
  let lat := endT - st.stats.startTime
  let s0 := { st.stats with
    endTime := some endT,
    latency := some lat,
    outputTokens := st.tokenCount }
  let s1 :=
    if st.firstTokenReceived then
      let gen := endT - s0.firstTokenTime.getD 0
      let s1g := { s0 with generationTime := some gen }
      if 1 < st.tokenCount ∧ 0 < gen then
        { s1g with postFirstTokenSpeed := some (((st.tokenCount - 1 : ℕ) : ℚ) / (gen : ℚ)) }
      else s1g
    else s0
  let s2 :=
    if 0 < st.tokenCount ∧ 0 < lat then
      { s1 with tokensPerSec := some ((st.tokenCount : ℚ) / (lat : ℚ)) }
    else s1
  { st with stats := s2, tick := st.tick + 1 }

/-- The chunks sent when `ReadBytes` returns an error: a read error first
sends an `Error` chunk, and both endings then send `Done` after
finalization (`openai.go` lines 468–490). -/
def endChunks : ReadEnding → List StreamChunk
  | .eof => [doneChunk]
  | .readErr e => [errChunk e, doneChunk]

/-- The reader-goroutine loop of `ChatStream` over the response body's
complete lines, producing the emitted chunk sequence and the final loop
state (whose `stats` is the shared `RequestStats` record). -/
def runLoop (d : String → Option StreamResp) (now : ℕ → ℤ) (e : ReadEnding) :
    List String → LoopState → List StreamChunk × LoopState
  | [], st => (endChunks e, finalizeStats now st)
  | l :: ls, st =>
    match classifyLine d l with
    | .skip => runLoop d now e ls st
    | .sentinel => ([doneChunk], finalizeStats now st)
    | .content s =>
      let st1 := contentStep now st
      let r := runLoop d now e ls st1
      ({ content := s } :: r.1, r.2)

/-- `OpenAIClient.ChatStream` after a 200 response: the goroutine consumes
the body (given as its complete lines plus how it ends) and the caller gets
the chunk sequence and the final stats.  `StartTime` is `now 0`. -/
def ChatStream (d : String → Option StreamResp) (now : ℕ → ℤ) (e : ReadEnding)
    (lines : List String) : List StreamChunk × LoopState :=
  runLoop d now e lines { stats := { startTime := now 0 } }

/-- Spec-side predicate: a chunk is a `Content` chunk (neither `Done` nor
`Error`), the classification the consumer in `chat.go` uses. -/
def isContentChunk (c : StreamChunk) : Bool :=
  c.error.isNone && !c.done

/-- Spec-side predicate, from the spec's parsing discipline: a line whose
payload is the literal stream-termination sentinel. -/
def isSentinelLine (l : String) : Bool :=
  let line := goTrimSpace l
  !line.data.isEmpty && goHasPrefix line "data: " && goDrop line 6 == "[DONE]"

/-- Spec-side predicate, from the spec's parsing discipline: a payload line
whose JSON-decoded text delta is non-empty. -/
def isContentLine (d : String → Option StreamResp) (l : String) : Bool :=
  let line := goTrimSpace l
  !line.data.isEmpty && goHasPrefix line "data: " && !(goDrop line 6 == "[DONE]") &&
    (match d (goDrop line 6) with
     | none => false
     | some r =>
       match r.choices with
       | [] => false
       | ch :: _ => !(ch.delta.content == ""))

/-!
## Command processor (`internal/commands/slash.go`)
-/

/-- `commands.CommandDef`. -/
structure CommandDef where
  name : String
  description : String
  usage : String
deriving Repr, DecidableEq

/-- `commands.Command`: a parsed slash command. -/
structure Command where
  name : String
  args : List String
deriving Repr, DecidableEq

/-- `commands.ParseCommand`: trim, require the leading slash, split into
whitespace-separated fields, lower-case the name.  The `Except` errors are
the `fmt.Errorf` messages of the source. -/
def ParseCommand (input : String) : Except String Command :=
  let input := goTrimSpace input
  if !(goHasPrefix input "/") then .error "not a command"
  else
    match goFields (goDrop input 1) with
    | [] => .error "empty command"
    | name :: args => .ok ⟨goToLower name, args⟩

/-- `commands.IsCommand`. -/
def IsCommand (input : String) : Bool :=
  goHasPrefix (goTrimSpace input) "/"

/-- `commands.Command.ValidateArgs` (`min`/`max` are Go ints). -/
def ValidateArgs (c : Command) (mn mx : ℤ) : Option String :=
  if (c.args.length : ℤ) < mn then
    some ("command /" ++ c.name ++ " requires at least " ++ toString mn ++ " argument(s)")
  else if 0 < mx ∧ mx < (c.args.length : ℤ) then
    some ("command /" ++ c.name ++ " accepts at most " ++ toString mx ++ " argument(s)")
  else none

/-- `commands.Command.GetFloatArg` with `pf` standing for
`strconv.ParseFloat` (`none` = parse failure). -/
def GetFloatArg (pf : String → Option ℚ) (c : Command) (index : ℕ) : Except String ℚ :=
  match c.args.get? index with
  | none => .error ("argument " ++ toString index ++ " not found")
  | some a =>
    match pf a with
    | none => .error ("invalid float value: " ++ a)
    | some v => .ok v

/-- `commands.Command.GetRestAsString`. -/
def GetRestAsString (c : Command) (startIndex : ℕ) : String :=
  if c.args.length ≤ startIndex then "" else goJoin " " (c.args.drop startIndex)

/-- The literal returned by `commands.CommandHelp`. -/
def commandHelpText : String :=
  "Available Commands:\n/help           - Show this help message\n/new            - Start a new conversation\n/clear          - Clear chat history (alias for /new)\n/reload         - Reload configuration from .chat-tui.yaml\n/temp <0-1>     - Set temperature (e.g., /temp 0.7)\n/system <text>  - Set system prompt\n/delete         - Delete last turn (user message + assistant response)\n/save <file>    - Save conversation to file\n/load <file>    - Load conversation from file\n/tokens         - Show token usage\n/cost           - Show estimated cost\n/export         - Export conversation as markdown\n/stats          - Toggle stats panel\n/debug          - Toggle debug mode\n/retry          - Retry last message\n/copy           - Copy last response to clipboard\n/edit           - Edit last message\n/multiline      - Toggle multiline input mode\n/quit           - Exit the application"

/-!
## Configuration, client and controller state (`config.go`, `openai.go`, `chat.go`)
-/

/-- The fields of `config.Config` consumed by the controller (the UI flag
`ui.show_stats` is flattened in). -/
structure Config where
  apiKey : String
  baseURL : String
  model : String
  temperature : ℚ
  maxTokens : ℕ
  systemPrompt : String := ""
  showStats : Bool := true
deriving Repr, DecidableEq

/-- The configuration fields of `llm.OpenAIClient` (the HTTP client itself
is an external collaborator). -/
structure OpenAIClient where
  apiKey : String
  baseURL : String
  model : String
  temperature : ℚ
  maxTokens : ℕ
deriving Repr, DecidableEq

/-- `llm.NewOpenAIClient`: stores the parameters, trimming one trailing
slash off the base URL. -/
def NewOpenAIClient (apiKey baseURL model : String) (temperature : ℚ)
    (maxTokens : ℕ) : OpenAIClient :=
  { apiKey := apiKey, baseURL := goTrimSuffix baseURL "/", model := model,
    temperature := temperature, maxTokens := maxTokens }

/-- The external library calls made by `handleCommand`, as parameters:
`strconv.ParseFloat` (`none` = error), `fmt.Sprintf "%.2f"`, and the
outcome of `clipboard.WriteAll` (`some e` = error `e`). -/
structure ExtCalls where
  parseFloat : String → Option ℚ
  formatFloat2 : ℚ → String
  clipboardErr : Option String := none

/-- `ui.ChatModel` of `chat.go`, restricted to the state the event loop
reads or writes (rendering components and window geometry are external).
`inputValue`/`inputHistory`/`multiline` model the input component,
`statsPanel`/`statsVisible` the stats component, and `quitting` records
that `tea.Quit` was returned. -/
structure ChatModel where
  config : Config
  client : OpenAIClient
  messages : List Message := []
  inputValue : String := ""
  inputHistory : List String := []
  streaming : Bool := false
  streamContent : String := ""
  streamChan : Option ℕ := none
  streamStats : Option RequestStats := none
  err : Option String := none
  systemPrompt : String := ""
  suggestions : List CommandDef := []
  selectedSuggestion : ℕ := 0
  statsPanel : Option RequestStats := none
  statsVisible : Bool := true
  multiline : Bool := false
  quitting : Bool := false
deriving Repr, DecidableEq

/-- `InputComponent.AddToHistory` (`components/input.go` lines 139–146):
append the input unless it is empty or equal to the last entry. -/
def AddToHistory (history : List String) (input : String) : List String :=
  if input ≠ "" ∧ (history.length = 0 ∨ history.getLastD "" ≠ input) then
    history ++ [input]
  else history

/-- The common tail of `handleCommand` (`chat.go` lines 1345–1351): add the
input to history, reset the input, clear suggestions.  Command branches
that `return` early in the source skip it. -/
def finishCmd (m : ChatModel) (input : String) : ChatModel :=
  { m with
    inputHistory := AddToHistory m.inputHistory input,
    inputValue := "",
    suggestions := [],
    selectedSuggestion := 0 }

/-- The `switch cmd.Name` dispatch of `ChatModel.handleCommand`
(`chat.go` lines 1236–1343), one branch per source case, in source order. -/
def execCommand (ext : ExtCalls) (m : ChatModel) (input : String) (cmd : Command) : ChatModel :=
  if cmd.name = "help" then
    finishCmd { m with
      err := none,
      messages := m.messages ++ [⟨"assistant", commandHelpText⟩] } input
  else if cmd.name = "new" ∨ cmd.name = "clear" then
    finishCmd { m with
      messages := if m.systemPrompt ≠ "" then [⟨"system", m.systemPrompt⟩] else [],
      err := none, streamContent := "" } input
  else if cmd.name = "reload" then
    m
  else if cmd.name = "delete" then
    finishCmd
      (if 2 ≤ m.messages.length then
        if (m.messages.getLastD ⟨"", ""⟩).role = "assistant" then
          { m with messages := m.messages.take (m.messages.length - 2), err := none }
        else
          { m with messages := m.messages.take (m.messages.length - 1), err := none }
      else { m with err := some "no messages to delete" }) input
  else if cmd.name = "stats" then
    finishCmd { m with statsVisible := !m.statsVisible } input
  else if cmd.name = "temp" then
    match ValidateArgs cmd 1 1 with
    | some e => { m with err := some e }
    | none =>
      match GetFloatArg ext.parseFloat cmd 0 with
      | .error e => { m with err := some e }
      | .ok temp =>
        if temp < 0 ∨ 2 < temp then
          { m with err := some "temperature must be between 0 and 2" }
        else
          finishCmd { m with
            client := { m.client with temperature := temp },
            err := none,
            messages := m.messages ++
              [⟨"system", "Temperature set to " ++ ext.formatFloat2 temp⟩] } input
  else if cmd.name = "system" then
    match ValidateArgs cmd 1 0 with
    | some e => { m with err := some e }
    | none =>
      let newPrompt := GetRestAsString cmd 0
      let m1 := { m with systemPrompt := newPrompt }
      let m2 :=
        match m1.messages with
        | msg0 :: rest =>
          if msg0.role = "system" then
            { m1 with messages := { msg0 with content := newPrompt } :: rest }
          else
            { m1 with messages := ⟨"system", newPrompt⟩ :: m1.messages }
        | [] => { m1 with messages := [⟨"system", newPrompt⟩] }
      finishCmd { m2 with err := none } input
  else if cmd.name = "copy" then
    finishCmd
      (match m.messages.reverse.find? (fun msg => msg.role == "assistant") with
      | none => m
      | some _ =>
        match ext.clipboardErr with
        | some e => { m with err := some ("failed to copy: " ++ e) }
        | none =>
          { m with
            err := none,
            messages := m.messages ++ [⟨"system", "Last response copied to clipboard"⟩] }) input
  else if cmd.name = "multiline" then
    finishCmd { m with multiline := !m.multiline } input
  else if cmd.name = "exit" then
    { m with quitting := true }
  else
    finishCmd
      { m with
        err := some ("unknown command: /" ++ cmd.name ++ " (type /help for available commands)") }
      input

/-- `ChatModel.handleCommand`: parse, set the error on a parse failure,
otherwise dispatch. -/
def handleCommand (ext : ExtCalls) (m : ChatModel) (input : String) : ChatModel :=
  match ParseCommand input with
  | .error e => { m with err := some e }
  | .ok cmd => execCommand ext m input cmd

/-- The events consumed by `ChatModel.Update` that touch the modelled
state: `tea.KeyCtrlC`, `tea.KeyEnter`, and the four custom messages of
`chat.go`. -/
inductive Msg where
  | keyCtrlC : Msg
  | keyEnter : Msg
  | streamStart (ch : ℕ) (stats : RequestStats) : Msg
  | streamChunk (chunk : StreamChunk) : Msg
  | streamComplete (stats : Option RequestStats) : Msg
  | errorMsg (e : String) : Msg
  | configReloaded (cfg : Config) : Msg
deriving Repr

/-- `ChatModel.Update` (`chat.go` lines 925–1100), one branch per source
case.  Branches mirror the source's early returns; the returned `tea.Cmd`
continuations (`waitForChunk`, `streamResponse`, `tea.Quit`) are driven
explicitly by feeding further `Msg`s. -/
def update (ext : ExtCalls) (m : ChatModel) : Msg → ChatModel
  | .streamStart ch stats => { m with streamChan := some ch, streamStats := some stats }
  | .keyCtrlC =>
    if m.streaming then { m with streaming := false, err := some "streaming cancelled" }
    else { m with quitting := true }
  | .keyEnter =>
    if m.streaming then m
    else
      let input := goTrimSpace m.inputValue
      if input = "" then m
      else
        let input :=
          if IsCommand input = true ∧ m.suggestions ≠ [] then
            "/" ++ (m.suggestions.getD m.selectedSuggestion ⟨"", "", ""⟩).name
          else input
        let m1 := { m with suggestions := [], selectedSuggestion := 0 }
        if IsCommand input then handleCommand ext m1 input
        else
          { m1 with
            messages := m1.messages ++ [⟨"user", input⟩],
            inputHistory := AddToHistory m1.inputHistory input,
            inputValue := "",
            streaming := true,
            streamContent := "" }
  | .streamChunk chunk =>
    if chunk.error ≠ none then
      { m with streaming := false, streamChan := none, err := chunk.error }
    else if chunk.done then
      let m1 := { m with streaming := false, streamChan := none }
      let m2 :=
        if m1.streamContent ≠ "" then
          { m1 with messages := m1.messages ++ [⟨"assistant", m1.streamContent⟩] }
        else m1
      { m2 with statsPanel := m2.streamStats }
    else { m with streamContent := m.streamContent ++ chunk.content }
  | .streamComplete stats =>
    let m1 := { m with streaming := false, streamChan := none, statsPanel := stats }
    if m1.streamContent ≠ "" then
      { m1 with messages := m1.messages ++ [⟨"assistant", m1.streamContent⟩] }
    else m1
  | .errorMsg e => { m with err := some e, streaming := false }
  | .configReloaded cfg =>
    { m with
      config := cfg,
      client := NewOpenAIClient cfg.apiKey cfg.baseURL cfg.model cfg.temperature cfg.maxTokens,
      err := none }

/-- Feeding a list of `Content` fragments to the controller, one
`streamChunkMsg` at a time, as `waitForChunk` delivers them. -/
def feedFragments (ext : ExtCalls) (m : ChatModel) (frags : List String) : ChatModel :=
  frags.foldl (fun acc f => update ext acc (.streamChunk { content := f })) m

/-- Spec-side invariant on a history: only index 0 may hold a
`system`-role message (hence at most one system message, at index 0). -/
def sysInv (msgs : List Message) : Bool :=
  (msgs.drop 1).all (fun msg => msg.role != "system")

/-!
## Concrete instances used by witnesses and counterexamples
-/

/-- A concrete JSON decoder: one decodable payload `"hi"` carrying the
delta `"Hi"` (the spec's scenario), everything else undecodable. -/
def dTest : String → Option StreamResp := fun s =>
  if s == "hi" then some ⟨[⟨⟨"Hi"⟩⟩]⟩ else none

/-- A decoder for a two-token stream: payloads `"a"` and `"b"`. -/
def dTest2 : String → Option StreamResp := fun s =>
  if s == "a" then some ⟨[⟨⟨"Hel"⟩⟩]⟩
  else if s == "b" then some ⟨[⟨⟨"lo"⟩⟩]⟩
  else none

/-- The identity clock. -/
def nowTest : ℕ → ℤ := fun n => (n : ℤ)

def testConfig : Config := ⟨"k", "u", "m", 0, 0, "", true⟩

def testClient : OpenAIClient := ⟨"k", "u", "m", 0, 0⟩

/-- A controller state with the given history and otherwise default
fields. -/
def mkModel (msgs : List Message) : ChatModel :=
  { config := testConfig, client := testClient, messages := msgs }

/-- External calls for tests: `ParseFloat` knows `"1"` and `"3"`,
`%.2f`-formatting is fixed, the clipboard succeeds. -/
def extTest : ExtCalls where
  parseFloat := fun s => if s == "1" then some 1 else if s == "3" then some 3 else none
  formatFloat2 := fun _ => "1.00"
  clipboardErr := none

/-- A parsed command name other than `temp` and `copy` (the two commands
whose success paths append a notice message). -/
def notTempCopy (s : String) : Bool :=
  match ParseCommand s with
  | .ok c => !(c.name == "temp") && !(c.name == "copy")
  | .error _ => true

/-- A controller state mid-stream over a one-message history. -/
def mStreaming : ChatModel := { mkModel [⟨"user", "hi"⟩] with streaming := true }

/-- An idle controller state whose input box holds `"hello"`. -/
def mIdle : ChatModel := { mkModel [] with inputValue := "hello" }

/-!
## Loop invariant of the stream reader
-/

/-- Invariant of the `ChatStream` reader loop state: the start time is the
clock's origin, the first-token flag tracks a positive token count and the
presence of `FirstTokenTime`, any recorded first-token time came from an
earlier clock tick, `TimeToFirstToken` is its offset from the start, the
ghost assignment counter matches the flag, and the post-first-token speed
has not been written yet. -/
def StInv (now : ℕ → ℤ) (st : LoopState) : Prop :=
  st.stats.startTime = now 0 ∧
  (st.firstTokenReceived = true ↔ 0 < st.tokenCount) ∧
  (st.firstTokenReceived = true ↔ st.stats.firstTokenTime.isSome = true) ∧
  (∀ ft, st.stats.firstTokenTime = some ft → ∃ k, k < st.tick ∧ ft = now k) ∧
  st.stats.timeToFirstToken = st.stats.firstTokenTime.map (fun ft => ft - now 0) ∧
  st.ttftAssignments = (if st.firstTokenReceived = true then 1 else 0) ∧
  st.stats.postFirstTokenSpeed = none

theorem StInv_init (now : ℕ → ℤ) : StInv now { stats := { startTime := now 0 } } := by
  refine ⟨rfl, by simp, by simp, ?_, rfl, rfl, rfl⟩
  intro ft h
  simp at h

theorem classifyLine_cases (d : String → Option StreamResp) (l : String) :
    (classifyLine d l = .sentinel ∧ isSentinelLine l = true ∧ isContentLine d l = false) ∨
    (classifyLine d l = .skip ∧ isSentinelLine l = false ∧ isContentLine d l = false) ∨
    (∃ s, classifyLine d l = .content s ∧ isSentinelLine l = false ∧
      isContentLine d l = true) := by
  unfold classifyLine isSentinelLine isContentLine
  by_cases h1 : (goTrimSpace l).data.isEmpty = true
  · right; left; simp [h1]
  · by_cases h2 : goHasPrefix (goTrimSpace l) "data: " = true
    · by_cases h3 : (goDrop (goTrimSpace l) 6 == "[DONE]") = true
      · left; simp [h1, h2, h3]
      · rcases hd : d (goDrop (goTrimSpace l) 6) with _ | r
        · right; left; simp [h1, h2, h3, hd]
        · rcases hr : r.choices with _ | ⟨ch, rest⟩
          · right; left; simp [h1, h2, h3, hd, hr]
          · by_cases h4 : (ch.delta.content == "") = true
            · right; left; simp [h1, h2, h3, hd, hr, h4]
            · right; right
              exact ⟨ch.delta.content, by simp [h1, h2, h3, hd, hr, h4]⟩
    · right; left; simp [h1, h2]

theorem contentStep_tokenCount (now : ℕ → ℤ) (st : LoopState) :
    (contentStep now st).tokenCount = st.tokenCount + 1 := by
  simp only [contentStep]
  split <;> rfl

theorem StInv_contentStep (now : ℕ → ℤ) (st : LoopState) (h : StInv now st) :
    StInv now (contentStep now st) := by
  obtain ⟨h0, h1, h2, h3, h4, h5, h6⟩ := h
  simp only [contentStep]
  by_cases hf : st.firstTokenReceived = true
  · rw [if_pos hf]
    exact ⟨h0, by simp [hf], h2, h3, h4, h5, h6⟩
  · rw [if_neg hf]
    refine ⟨h0, by simp, by simp, ?_, by simp [h0], ?_, h6⟩
    · intro ft hft
      simp only [Option.some.injEq] at hft
      exact ⟨st.tick, Nat.lt_succ_self _, hft.symm⟩
    · simp only [hf, if_false] at h5
      simp [h5]

theorem finalizeStats_outputTokens (now : ℕ → ℤ) (st : LoopState) :
    (finalizeStats now st).stats.outputTokens = st.tokenCount := by
  simp only [finalizeStats]
  split_ifs <;> rfl

theorem finalizeStats_endTime (now : ℕ → ℤ) (st : LoopState) :
    (finalizeStats now st).stats.endTime = some (now st.tick) := by
  simp only [finalizeStats]
  split_ifs <;> rfl

theorem finalizeStats_latency (now : ℕ → ℤ) (st : LoopState) :
    (finalizeStats now st).stats.latency = some (now st.tick - st.stats.startTime) := by
  simp only [finalizeStats]
  split_ifs <;> rfl

theorem finalizeStats_firstTokenTime (now : ℕ → ℤ) (st : LoopState) :
    (finalizeStats now st).stats.firstTokenTime = st.stats.firstTokenTime := by
  simp only [finalizeStats]
  split_ifs <;> rfl

theorem finalizeStats_ttft (now : ℕ → ℤ) (st : LoopState) :
    (finalizeStats now st).stats.timeToFirstToken = st.stats.timeToFirstToken := by
  simp only [finalizeStats]
  split_ifs <;> rfl

theorem finalizeStats_assignments (now : ℕ → ℤ) (st : LoopState) :
    (finalizeStats now st).ttftAssignments = st.ttftAssignments := by
  simp only [finalizeStats]

theorem finalizeStats_generationTime (now : ℕ → ℤ) (st : LoopState) :
    (finalizeStats now st).stats.generationTime =
      if st.firstTokenReceived = true then
        some (now st.tick - st.stats.firstTokenTime.getD 0)
      else st.stats.generationTime := by
  simp only [finalizeStats]
  split_ifs <;> simp_all

theorem finalizeStats_pfts (now : ℕ → ℤ) (st : LoopState) :
    (finalizeStats now st).stats.postFirstTokenSpeed =
      if st.firstTokenReceived = true ∧ 1 < st.tokenCount ∧
          0 < now st.tick - st.stats.firstTokenTime.getD 0 then
        some (((st.tokenCount - 1 : ℕ) : ℚ) /
          ((now st.tick - st.stats.firstTokenTime.getD 0 : ℤ) : ℚ))
      else st.stats.postFirstTokenSpeed := by
  simp only [finalizeStats]
  split_ifs <;> simp_all

/-- Master lemma about the reader loop: the emitted sequence is a block of
`Content` chunks (one per content-carrying line before the first sentinel),
followed by the terminal tail determined by whether the sentinel was
reached; the final state is a finalization of a loop state that counted
exactly those chunks and preserves the loop invariant. -/
theorem runLoop_spec (d : String → Option StreamResp) (now : ℕ → ℤ) (e : ReadEnding) :
    ∀ (ls : List String) (st : LoopState),
    ∃ pre st',
      runLoop d now e ls st =
        (pre ++ (if ls.any isSentinelLine then [doneChunk] else endChunks e),
          finalizeStats now st') ∧
      (∀ c ∈ pre, isContentChunk c = true) ∧
      pre.length =
        ((ls.takeWhile (fun l => !isSentinelLine l)).filter (isContentLine d)).length ∧
      st'.tokenCount = st.tokenCount + pre.length ∧
      (StInv now st → StInv now st')
  | [], st => by
    refine ⟨[], st, by simp [runLoop], by simp, by simp, by simp, fun h => h⟩
  | l :: ls, st => by
    rcases classifyLine_cases d l with ⟨hc, hs, hcnt⟩ | ⟨hc, hs, hcnt⟩ | ⟨s, hc, hs, hcnt⟩
    · refine ⟨[], st, ?_, by simp, ?_, by simp, fun h => h⟩
      · simp [runLoop, hc, hs]
      · simp [hs]
    · obtain ⟨pre, st', heq, hpre, hlen, htok, hinv⟩ := runLoop_spec d now e ls st
      refine ⟨pre, st', ?_, hpre, ?_, htok, hinv⟩
      · simpa [runLoop, hc, hs] using heq
      · simp [hs, hcnt, hlen]
    · obtain ⟨pre, st', heq, hpre, hlen, htok, hinv⟩ :=
        runLoop_spec d now e ls (contentStep now st)
      refine ⟨{ content := s } :: pre, st', ?_, ?_, ?_, ?_, ?_⟩
      · simp only [runLoop, hc, heq, hs, List.any_cons, Bool.false_or, List.cons_append]
      · intro c hcmem
        rw [List.mem_cons] at hcmem
        rcases hcmem with rfl | hcmem
        · rfl
        · exact hpre c hcmem
      · simp [hs, hcnt, hlen]
      · rw [htok, contentStep_tokenCount]
        simp
        omega
      · intro h
        exact hinv (StInv_contentStep now st h)

theorem filter_content_append (pre tail : List StreamChunk)
    (hpre : ∀ c ∈ pre, isContentChunk c = true)
    (htail : ∀ c ∈ tail, isContentChunk c = false) :
    (pre ++ tail).filter isContentChunk = pre := by
  rw [List.filter_append, List.filter_eq_self.mpr hpre,
    List.filter_eq_nil_iff.mpr (fun c hc => by simp [htail c hc]), List.append_nil]

theorem tail_not_content (e : ReadEnding) (b : Bool) :
    ∀ c ∈ (if b then [doneChunk] else endChunks e), isContentChunk c = false := by
  intro c hc
  have hd : isContentChunk doneChunk = false := rfl
  cases b with
  | true =>
    rw [if_pos rfl, List.mem_singleton] at hc
    rw [hc]; exact hd
  | false =>
    rw [if_neg (by simp)] at hc
    cases e with
    | eof =>
      rw [show endChunks .eof = [doneChunk] from rfl, List.mem_singleton] at hc
      rw [hc]; exact hd
    | readErr er =>
      rw [show endChunks (.readErr er) = [errChunk er, doneChunk] from rfl,
        List.mem_cons, List.mem_singleton] at hc
      rcases hc with rfl | rfl
      · rfl
      · exact hd

/-- C1: for every well-formed SSE body terminated by the sentinel, the
streaming client emits exactly one `Content` chunk per payload line whose
JSON-decoded text delta is non-empty (blank lines, lines without the data
marker, undecodable payloads, and payloads with an empty delta produce no
chunk), and the final `output_tokens` in the stats record equals the
number of `Content` chunks emitted. -/
theorem chatStream_content_count (d : String → Option StreamResp) (now : ℕ → ℤ)
    (e : ReadEnding) (lines : List String)
    (hs : lines.any isSentinelLine = true) :
    ((ChatStream d now e lines).1.filter isContentChunk).length =
      ((lines.takeWhile (fun l => !isSentinelLine l)).filter (isContentLine d)).length ∧
    (ChatStream d now e lines).2.stats.outputTokens =
      ((ChatStream d now e lines).1.filter isContentChunk).length := by
  obtain ⟨pre, st', heq, hpre, hlen, htok, hinv⟩ :=
    runLoop_spec d now e lines { stats := { startTime := now 0 } }
  have hfil :
      (ChatStream d now e lines).1.filter isContentChunk = pre := by
    unfold ChatStream
    rw [heq]
    exact filter_content_append pre _ hpre (tail_not_content e _)
  refine ⟨by rw [hfil, hlen], ?_⟩
  rw [hfil]
  unfold ChatStream
  rw [heq]
  simpa [finalizeStats_outputTokens] using htok

/-- C1 witness: the spec's scenario; a body with one non-empty delta then
the sentinel, read with the identity clock. -/
theorem chatStream_content_count_witness :
    (["data: hi", "data: [DONE]"].any isSentinelLine = true) ∧
    (((ChatStream dTest nowTest .eof ["data: hi", "data: [DONE]"]).1.filter
        isContentChunk).length =
      ((["data: hi", "data: [DONE]"].takeWhile (fun l => !isSentinelLine l)).filter
        (isContentLine dTest)).length ∧
    (ChatStream dTest nowTest .eof ["data: hi", "data: [DONE]"]).2.stats.outputTokens =
      (((ChatStream dTest nowTest .eof ["data: hi", "data: [DONE]"])).1.filter
        isContentChunk).length) :=
  ⟨by decide, chatStream_content_count dTest nowTest .eof _ (by decide)⟩

/-- C2 (amended): the emitted sequence is a block of `Content` chunks
followed by a terminal tail: a single `Done` chunk when the sentinel was
reached or the body ended cleanly, and an `Error` chunk followed by a
final `Done` chunk on a mid-stream read error.  `Done` is terminal, but an
`Error` chunk is followed by one `Done` chunk (after stats finalization)
rather than ending the sequence immediately. -/
theorem chatStream_chunk_shape (d : String → Option StreamResp) (now : ℕ → ℤ)
    (e : ReadEnding) (lines : List String) :
    ∃ pre, (ChatStream d now e lines).1 =
        pre ++ (if lines.any isSentinelLine then [doneChunk] else endChunks e) ∧
      ∀ c ∈ pre, isContentChunk c = true := by
  obtain ⟨pre, st', heq, hpre, _, _, _⟩ :=
    runLoop_spec d now e lines { stats := { startTime := now 0 } }
  exact ⟨pre, by unfold ChatStream; rw [heq], hpre⟩

/-- C2 counterexample: on an empty body ending in a read error, the client
emits the `Error` chunk and then a further `Done` chunk, so an `Error`
chunk is not terminal as the claim states. -/
theorem chatStream_error_not_terminal :
    (ChatStream dTest nowTest (.readErr "read failed") []).1 =
      [errChunk "read failed", doneChunk] ∧
    ¬(∀ c ∈ (ChatStream dTest nowTest (.readErr "read failed") []).1.dropLast,
        c.done = false ∧ c.error = none) := by decide

/-- C4: `time_to_first_token` is present in the final stats if and only if
at least one `Content` chunk was produced; it is assigned exactly once per
stream (the ghost counter of executions of the first-token assignment is
`1` when the field is present and `0` otherwise), and whenever present it
satisfies `0 ≤ time_to_first_token ≤ total_latency` (for any monotone
clock). -/
theorem chatStream_ttft_spec (d : String → Option StreamResp) (now : ℕ → ℤ)
    (e : ReadEnding) (lines : List String) (hmono : Monotone now) :
    ((ChatStream d now e lines).2.stats.timeToFirstToken.isSome = true ↔
      0 < ((ChatStream d now e lines).1.filter isContentChunk).length) ∧
    (ChatStream d now e lines).2.ttftAssignments ≤ 1 ∧
    ((ChatStream d now e lines).2.ttftAssignments = 1 ↔
      (ChatStream d now e lines).2.stats.timeToFirstToken.isSome = true) ∧
    (∀ t, (ChatStream d now e lines).2.stats.timeToFirstToken = some t →
      0 ≤ t ∧ ∃ lat, (ChatStream d now e lines).2.stats.latency = some lat ∧ t ≤ lat) := by
  obtain ⟨pre, st', heq, hpre, hlen, htok, hinv⟩ :=
    runLoop_spec d now e lines { stats := { startTime := now 0 } }
  obtain ⟨i0, i1, i2, i3, i4, i5, i6⟩ := hinv (StInv_init now)
  have hfil : (ChatStream d now e lines).1.filter isContentChunk = pre := by
    unfold ChatStream
    rw [heq]
    exact filter_content_append pre _ hpre (tail_not_content e _)
  have hst : (ChatStream d now e lines).2 = finalizeStats now st' := by
    unfold ChatStream
    rw [heq]
  have htc : st'.tokenCount = pre.length := by simpa using htok
  have hsome :
      (ChatStream d now e lines).2.stats.timeToFirstToken.isSome = true ↔
        st'.firstTokenReceived = true := by
    rw [hst, finalizeStats_ttft, i4, Option.isSome_map']
    exact i2.symm
  refine ⟨?_, ?_, ?_, ?_⟩
  · rw [hfil, hsome, i1, htc]
  · rw [hst, finalizeStats_assignments, i5]
    split_ifs <;> omega
  · rw [hst, finalizeStats_assignments, i5, ← hst, hsome]
    split_ifs with hcond <;> simp [hcond]
  · intro t ht
    rw [hst, finalizeStats_ttft, i4] at ht
    rw [Option.map_eq_some'] at ht
    obtain ⟨ft, hft, hteq⟩ := ht
    obtain ⟨k, hk, hkeq⟩ := i3 ft hft
    subst hteq
    subst hkeq
    constructor
    · have := hmono (Nat.zero_le k)
      omega
    · refine ⟨now st'.tick - now 0, ?_, ?_⟩
      · rw [hst, finalizeStats_latency, i0]
      · have := hmono (Nat.le_of_lt hk)
        omega

/-- C4 witness: the one-token scenario stream under the identity clock
(which is monotone). -/
theorem chatStream_ttft_spec_witness :
    Monotone nowTest ∧
    (((ChatStream dTest nowTest .eof ["data: hi", "data: [DONE]"]).2.stats.timeToFirstToken.isSome = true ↔
      0 < ((ChatStream dTest nowTest .eof ["data: hi", "data: [DONE]"]).1.filter isContentChunk).length) ∧
    (ChatStream dTest nowTest .eof ["data: hi", "data: [DONE]"]).2.ttftAssignments ≤ 1 ∧
    ((ChatStream dTest nowTest .eof ["data: hi", "data: [DONE]"]).2.ttftAssignments = 1 ↔
      (ChatStream dTest nowTest .eof ["data: hi", "data: [DONE]"]).2.stats.timeToFirstToken.isSome = true) ∧
    (∀ t, (ChatStream dTest nowTest .eof ["data: hi", "data: [DONE]"]).2.stats.timeToFirstToken = some t →
      0 ≤ t ∧ ∃ lat,
        (ChatStream dTest nowTest .eof ["data: hi", "data: [DONE]"]).2.stats.latency = some lat ∧
          t ≤ lat)) :=
  have hm : Monotone nowTest := fun a b h => by
    simp only [nowTest]
    exact_mod_cast h
  ⟨hm, chatStream_ttft_spec dTest nowTest .eof ["data: hi", "data: [DONE]"] hm⟩

/-- C5: `post_first_token_tokens_per_sec` is present in the final stats
only when `output_tokens ≥ 2`; and under a strictly monotone clock, when
more than one token was observed it equals
`(output_tokens - 1) / generation_time` with
`generation_time = end_time - first_token_time > 0`. -/
theorem chatStream_pfts_spec (d : String → Option StreamResp) (now : ℕ → ℤ)
    (e : ReadEnding) (lines : List String) (hsm : StrictMono now) :
    ((ChatStream d now e lines).2.stats.postFirstTokenSpeed.isSome = true →
      2 ≤ (ChatStream d now e lines).2.stats.outputTokens) ∧
    (2 ≤ (ChatStream d now e lines).2.stats.outputTokens →
      ∃ ft et g, (ChatStream d now e lines).2.stats.firstTokenTime = some ft ∧
        (ChatStream d now e lines).2.stats.endTime = some et ∧
        (ChatStream d now e lines).2.stats.generationTime = some g ∧
        g = et - ft ∧ 0 < g ∧
        (ChatStream d now e lines).2.stats.postFirstTokenSpeed =
          some ((((ChatStream d now e lines).2.stats.outputTokens : ℚ) - 1) / (g : ℚ))) := by
  obtain ⟨pre, st', heq, hpre, hlen, htok, hinv⟩ :=
    runLoop_spec d now e lines { stats := { startTime := now 0 } }
  obtain ⟨i0, i1, i2, i3, i4, i5, i6⟩ := hinv (StInv_init now)
  have hst : (ChatStream d now e lines).2 = finalizeStats now st' := by
    unfold ChatStream
    rw [heq]
  have hout : (ChatStream d now e lines).2.stats.outputTokens = st'.tokenCount := by
    rw [hst, finalizeStats_outputTokens]
  constructor
  · intro hsome
    rw [hst, finalizeStats_pfts] at hsome
    rw [hout]
    split_ifs at hsome with hcond
    · omega
    · rw [i6] at hsome
      simp at hsome
  · intro h2
    rw [hout] at h2
    have hrec : st'.firstTokenReceived = true := i1.mpr (by omega)
    have hsomeft : st'.stats.firstTokenTime.isSome = true := i2.mp hrec
    obtain ⟨ft, hft⟩ := Option.isSome_iff_exists.mp hsomeft
    obtain ⟨k, hk, hkeq⟩ := i3 ft hft
    have hgd : st'.stats.firstTokenTime.getD 0 = ft := by rw [hft]; rfl
    have hgen : (0 : ℤ) < now st'.tick - st'.stats.firstTokenTime.getD 0 := by
      rw [hgd, hkeq]
      have := hsm hk
      omega
    refine ⟨ft, now st'.tick, now st'.tick - ft, ?_, ?_, ?_, rfl, ?_, ?_⟩
    · rw [hst, finalizeStats_firstTokenTime, hft]
    · rw [hst, finalizeStats_endTime]
    · rw [hst, finalizeStats_generationTime, if_pos hrec, hgd]
    · rw [hgd] at hgen
      exact hgen
    · rw [hst, finalizeStats_pfts, if_pos ⟨hrec, by omega, hgen⟩, hgd,
        finalizeStats_outputTokens]
      congr 1
      rw [Nat.cast_sub (by omega : (1 : ℕ) ≤ st'.tokenCount), Nat.cast_one]

/-- C5 witness: a two-token stream under the identity clock (which is
strictly monotone). -/
theorem chatStream_pfts_spec_witness :
    StrictMono nowTest ∧
    (((ChatStream dTest2 nowTest .eof ["data: a", "data: b", "data: [DONE]"]).2.stats.postFirstTokenSpeed.isSome = true →
      2 ≤ (ChatStream dTest2 nowTest .eof ["data: a", "data: b", "data: [DONE]"]).2.stats.outputTokens) ∧
    (2 ≤ (ChatStream dTest2 nowTest .eof ["data: a", "data: b", "data: [DONE]"]).2.stats.outputTokens →
      ∃ ft et g,
        (ChatStream dTest2 nowTest .eof ["data: a", "data: b", "data: [DONE]"]).2.stats.firstTokenTime = some ft ∧
        (ChatStream dTest2 nowTest .eof ["data: a", "data: b", "data: [DONE]"]).2.stats.endTime = some et ∧
        (ChatStream dTest2 nowTest .eof ["data: a", "data: b", "data: [DONE]"]).2.stats.generationTime = some g ∧
        g = et - ft ∧ 0 < g ∧
        (ChatStream dTest2 nowTest .eof ["data: a", "data: b", "data: [DONE]"]).2.stats.postFirstTokenSpeed =
          some ((((ChatStream dTest2 nowTest .eof
            ["data: a", "data: b", "data: [DONE]"]).2.stats.outputTokens : ℚ) - 1) / (g : ℚ)))) :=
  have hm : StrictMono nowTest := fun a b h => by
    simp only [nowTest]
    exact_mod_cast h
  ⟨hm, chatStream_pfts_spec dTest2 nowTest .eof ["data: a", "data: b", "data: [DONE]"] hm⟩

/-!
## Controller-side helper lemmas
-/

theorem string_join_cons (f : String) (fs : List String) :
    String.join (f :: fs) = f ++ String.join fs := by
  apply String.ext
  rw [String.join_eq, String.join_eq, String.data_append]
  simp

theorem string_append_ne_empty (a b : String) (h : a ≠ "") : a ++ b ≠ "" := by
  intro hc
  have hd := congrArg String.data hc
  rw [String.data_append] at hd
  simp at hd
  exact h (by cases a with | mk l => cases hd.1; rfl)

theorem string_join_ne_empty (frags : List String) (h0 : frags ≠ [])
    (h1 : ∀ f ∈ frags, f ≠ "") : String.join frags ≠ "" := by
  cases frags with
  | nil => exact absurd rfl h0
  | cons f fs =>
    rw [string_join_cons]
    exact string_append_ne_empty f _ (h1 f (List.mem_cons_self f fs))

/-- Feeding `Content` fragments only appends them, in order, to the
streaming buffer; every other field of the controller is untouched. -/
theorem feedFragments_eq (ext : ExtCalls) :
    ∀ (frags : List String) (m : ChatModel),
    feedFragments ext m frags =
      { m with streamContent := m.streamContent ++ String.join frags }
  | [], m => by
    show m = _
    have : String.join [] = "" := rfl
    rw [this, String.append_empty]
  | f :: fs, m => by
    have hstep : feedFragments ext m (f :: fs) =
        feedFragments ext { m with streamContent := m.streamContent ++ f } fs := rfl
    rw [hstep, feedFragments_eq ext fs, string_join_cons]
    show _ = { m with streamContent := m.streamContent ++ (f ++ String.join fs) }
    rw [← String.append_assoc]

/-- Helper: the effect of a terminal `Done` chunk when the buffer is
non-empty (`chat.go` lines 1039–1051). -/
theorem update_done_eq (ext : ExtCalls) (m : ChatModel) (h : m.streamContent ≠ "") :
    update ext m (.streamChunk { done := true }) =
      { m with
        streaming := false,
        streamChan := none,
        messages := m.messages ++ [⟨"assistant", m.streamContent⟩],
        statsPanel := m.streamStats } := by
  have hstep : update ext m (.streamChunk { done := true }) =
      (fun m2 => { m2 with statsPanel := m2.streamStats })
        (if m.streamContent ≠ "" then
          { m with
            streaming := false,
            streamChan := none,
            messages := m.messages ++ [⟨"assistant", m.streamContent⟩] }
        else { m with streaming := false, streamChan := none }) := rfl
  rw [hstep, if_pos h]

/-- C3 counterexample to the unamended claim: after two fragments and a
Ctrl+C, the cancelled session is idle with the cancellation notice — yet
when the pending read still delivers the final `Done` chunk, the
partial buffer `"Hello"` is committed as an assistant message, so an
assistant message IS appended after cancellation. -/
theorem cancel_then_done_commits_buffer :
    (update extTest (feedFragments extTest mStreaming ["He", "llo"]) .keyCtrlC).streaming =
      false ∧
    (update extTest (feedFragments extTest mStreaming ["He", "llo"]) .keyCtrlC).err =
      some "streaming cancelled" ∧
    (update extTest
        (update extTest (feedFragments extTest mStreaming ["He", "llo"]) .keyCtrlC)
        (.streamChunk { done := true })).messages =
      mStreaming.messages ++ [⟨"assistant", "Hello"⟩] := by
  decide

/-- C3 (amended): cancelling mid-stream (Ctrl+C while `streaming`), after
any number of received fragments, has as its immediate effect an unchanged
message history, the idle phase, and the cancellation notice as the error;
but the partial buffer and the chunk channel are NOT cleared, and chunk
messages are handled regardless of the phase — so if the already-pending
read later delivers the final `Done` chunk and the buffer is
non-empty, the partial buffer is committed as an assistant message after
all. -/
theorem cancel_spec (ext : ExtCalls) (m : ChatModel) (frags : List String)
    (h : m.streaming = true) :
    (update ext (feedFragments ext m frags) .keyCtrlC).messages = m.messages ∧
    (update ext (feedFragments ext m frags) .keyCtrlC).streaming = false ∧
    (update ext (feedFragments ext m frags) .keyCtrlC).err = some "streaming cancelled" ∧
    (update ext (feedFragments ext m frags) .keyCtrlC).streamContent =
      m.streamContent ++ String.join frags ∧
    (update ext (feedFragments ext m frags) .keyCtrlC).streamChan = m.streamChan ∧
    (m.streamContent ++ String.join frags ≠ "" →
      (update ext (update ext (feedFragments ext m frags) .keyCtrlC)
          (.streamChunk { done := true })).messages =
        m.messages ++ [⟨"assistant", m.streamContent ++ String.join frags⟩]) := by
  have hc : update ext (feedFragments ext m frags) .keyCtrlC =
      { m with
        streamContent := m.streamContent ++ String.join frags,
        streaming := false,
        err := some "streaming cancelled" } := by
    rw [feedFragments_eq]
    simp only [update]
    rw [if_pos (show ({ m with streamContent := m.streamContent ++ String.join frags } :
      ChatModel).streaming = true from h)]
  refine ⟨by rw [hc], by rw [hc], by rw [hc], by rw [hc], by rw [hc], ?_⟩
  intro hne
  rw [hc, update_done_eq]
  exact hne

/-- C3 witness: two fragments arrive, then Ctrl+C; the buffer is non-empty,
so the instantiated theorem also yields the post-cancel commit. -/
theorem cancel_spec_witness :
    mStreaming.streaming = true ∧
    ((update extTest (feedFragments extTest mStreaming ["He", "llo"]) .keyCtrlC).messages =
        mStreaming.messages ∧
      (update extTest (feedFragments extTest mStreaming ["He", "llo"]) .keyCtrlC).streaming =
        false ∧
      (update extTest (feedFragments extTest mStreaming ["He", "llo"]) .keyCtrlC).err =
        some "streaming cancelled" ∧
      (update extTest (feedFragments extTest mStreaming ["He", "llo"])
          .keyCtrlC).streamContent =
        mStreaming.streamContent ++ String.join ["He", "llo"] ∧
      (update extTest (feedFragments extTest mStreaming ["He", "llo"]) .keyCtrlC).streamChan =
        mStreaming.streamChan ∧
      (mStreaming.streamContent ++ String.join ["He", "llo"] ≠ "" →
        (update extTest
            (update extTest (feedFragments extTest mStreaming ["He", "llo"]) .keyCtrlC)
            (.streamChunk { done := true })).messages =
          mStreaming.messages ++
            [⟨"assistant", mStreaming.streamContent ++ String.join ["He", "llo"]⟩])) :=
  ⟨rfl, cancel_spec extTest mStreaming ["He", "llo"] rfl⟩

/-- C10: a `config_reload` event, in any state, replaces the configuration
and the client and leaves the conversation state untouched: history,
streaming buffer, in-flight chunk channel, stats record and phase are all
exactly as before. -/
theorem config_reload_frame (ext : ExtCalls) (m : ChatModel) (cfg : Config) :
    (update ext m (.configReloaded cfg)).messages = m.messages ∧
    (update ext m (.configReloaded cfg)).streamContent = m.streamContent ∧
    (update ext m (.configReloaded cfg)).streamChan = m.streamChan ∧
    (update ext m (.configReloaded cfg)).streamStats = m.streamStats ∧
    (update ext m (.configReloaded cfg)).streaming = m.streaming ∧
    (update ext m (.configReloaded cfg)).config = cfg ∧
    (update ext m (.configReloaded cfg)).client =
      NewOpenAIClient cfg.apiKey cfg.baseURL cfg.model cfg.temperature cfg.maxTokens :=
  ⟨rfl, rfl, rfl, rfl, rfl, rfl, rfl⟩

/-- C9: appending a user message (Enter on non-command input) and then
committing a fully streamed reply (fragments followed by the `Done` chunk)
appends exactly two entries to the history — the user message, then one
assistant message whose content is the in-order concatenation of all
fragments — and returns the controller to the idle phase. -/
theorem user_then_commit_round_trip (ext : ExtCalls) (m : ChatModel)
    (frags : List String)
    (h0 : m.streaming = false)
    (h1 : goTrimSpace m.inputValue ≠ "")
    (h2 : IsCommand (goTrimSpace m.inputValue) = false)
    (h3 : frags ≠ [])
    (h4 : ∀ f ∈ frags, f ≠ "") :
    (update ext (feedFragments ext (update ext m .keyEnter) frags)
        (.streamChunk { done := true })).messages =
      m.messages ++ [⟨"user", goTrimSpace m.inputValue⟩,
        ⟨"assistant", String.join frags⟩] ∧
    (update ext (feedFragments ext (update ext m .keyEnter) frags)
        (.streamChunk { done := true })).streaming = false := by
  have hjoin : String.join frags ≠ "" := string_join_ne_empty frags h3 h4
  have hm1 : update ext m .keyEnter =
      { m with
        suggestions := [],
        selectedSuggestion := 0,
        messages := m.messages ++ [⟨"user", goTrimSpace m.inputValue⟩],
        inputHistory := AddToHistory m.inputHistory (goTrimSpace m.inputValue),
        inputValue := "",
        streaming := true,
        streamContent := "" } := by
    simp only [update]
    rw [if_neg (by rw [h0]; exact Bool.false_ne_true)]
    rw [if_neg h1]
    rw [h2]
    have hinner : (if false = true ∧ m.suggestions ≠ [] then
        "/" ++ (m.suggestions.getD m.selectedSuggestion ⟨"", "", ""⟩).name
      else goTrimSpace m.inputValue) = goTrimSpace m.inputValue :=
      if_neg (fun hc => Bool.false_ne_true hc.1)
    rw [hinner, h2, if_neg Bool.false_ne_true]
  rw [hm1, feedFragments_eq, update_done_eq]
  · constructor
    · show m.messages ++ [⟨"user", goTrimSpace m.inputValue⟩] ++
        [⟨"assistant", "" ++ String.join frags⟩] = _
      rw [String.empty_append, List.append_assoc]
      rfl
    · rfl
  · show ("" ++ String.join frags) ≠ ""
    rw [String.empty_append]
    exact hjoin

/-- C9 witness: input `"hello"`, a reply streamed in two fragments. -/
theorem user_then_commit_round_trip_witness :
    mIdle.streaming = false ∧
    goTrimSpace mIdle.inputValue ≠ "" ∧
    IsCommand (goTrimSpace mIdle.inputValue) = false ∧
    (["He", "llo"] : List String) ≠ [] ∧
    (∀ f ∈ (["He", "llo"] : List String), f ≠ "") ∧
    ((update extTest (feedFragments extTest (update extTest mIdle .keyEnter) ["He", "llo"])
        (.streamChunk { done := true })).messages =
      mIdle.messages ++ [⟨"user", goTrimSpace mIdle.inputValue⟩,
        ⟨"assistant", String.join ["He", "llo"]⟩] ∧
    (update extTest (feedFragments extTest (update extTest mIdle .keyEnter) ["He", "llo"])
        (.streamChunk { done := true })).streaming = false) :=
  ⟨rfl, by decide, by decide, by decide, by decide,
    user_then_commit_round_trip extTest mIdle ["He", "llo"] rfl (by decide) (by decide)
      (by decide) (by decide)⟩

/-!
## DeleteLastTurn (the `/delete` command)
-/

/-- C6 (amended): `/delete` operates only when the history holds at least
two messages: it removes the last two when the last is an assistant
message, otherwise removes the last message alone; with fewer than two
messages — including a lone user message or just the system message — it
fails with the `NothingToDelete` error and leaves the history unchanged.
`[system, user, assistant]` then yields `[system]`, `[system, user]`
yields `[system]`, and `[system]` alone fails. -/
theorem deleteLastTurn_spec (ext : ExtCalls) (m : ChatModel) :
    (2 ≤ m.messages.length →
      ((m.messages.getLastD ⟨"", ""⟩).role = "assistant" →
        (handleCommand ext m "/delete").messages =
          m.messages.take (m.messages.length - 2) ∧
        (handleCommand ext m "/delete").err = none) ∧
      (¬(m.messages.getLastD ⟨"", ""⟩).role = "assistant" →
        (handleCommand ext m "/delete").messages =
          m.messages.take (m.messages.length - 1) ∧
        (handleCommand ext m "/delete").err = none)) ∧
    (m.messages.length < 2 →
      (handleCommand ext m "/delete").messages = m.messages ∧
      (handleCommand ext m "/delete").err = some "no messages to delete") := by
  have he : handleCommand ext m "/delete" =
      finishCmd
        (if 2 ≤ m.messages.length then
          if (m.messages.getLastD ⟨"", ""⟩).role = "assistant" then
            { m with messages := m.messages.take (m.messages.length - 2), err := none }
          else
            { m with messages := m.messages.take (m.messages.length - 1), err := none }
        else { m with err := some "no messages to delete" }) "/delete" := by
    have hp : handleCommand ext m "/delete" = execCommand ext m "/delete" ⟨"delete", []⟩ := by
      unfold handleCommand
      rw [show ParseCommand "/delete" = .ok ⟨"delete", []⟩ from rfl]
    rw [hp]
    simp only [execCommand]
    rw [if_neg (by decide), if_neg (by decide), if_neg (by decide), if_pos trivial]
  constructor
  · intro hlen
    constructor
    · intro hrole
      rw [he, if_pos hlen, if_pos hrole]
      exact ⟨rfl, rfl⟩
    · intro hrole
      rw [he, if_pos hlen, if_neg hrole]
      exact ⟨rfl, rfl⟩
  · intro hlen
    rw [he, if_neg (by omega)]
    exact ⟨rfl, rfl⟩

/-- C6 witness: the three histories of the spec's scenarios. -/
theorem deleteLastTurn_spec_witness :
    (handleCommand extTest (mkModel [⟨"system", "p"⟩, ⟨"user", "u"⟩, ⟨"assistant", "a"⟩])
        "/delete").messages = [⟨"system", "p"⟩] ∧
    (handleCommand extTest (mkModel [⟨"system", "p"⟩, ⟨"user", "u"⟩]) "/delete").messages =
      [⟨"system", "p"⟩] ∧
    (handleCommand extTest (mkModel [⟨"system", "p"⟩]) "/delete").err =
      some "no messages to delete" := by
  refine ⟨?_, ?_, ?_⟩
  · have h := (((deleteLastTurn_spec extTest
      (mkModel [⟨"system", "p"⟩, ⟨"user", "u"⟩, ⟨"assistant", "a"⟩])).1
        (by decide)).1 (by decide)).1
    rw [h]
    decide
  · have h := (((deleteLastTurn_spec extTest
      (mkModel [⟨"system", "p"⟩, ⟨"user", "u"⟩])).1 (by decide)).2 (by decide)).1
    rw [h]
    decide
  · exact ((deleteLastTurn_spec extTest (mkModel [⟨"system", "p"⟩])).2 (by decide)).2

/-- C6 counterexample: on a history holding a single user message (as left
behind when a stream fails before any content arrives), the claim says
DeleteLastTurn removes that user message alone; the code instead refuses
(its guard requires two messages), leaving the history unchanged and
reporting the error. -/
theorem deleteLastTurn_lone_user :
    (handleCommand extTest (mkModel [⟨"user", "hi"⟩]) "/delete").messages =
      [⟨"user", "hi"⟩] ∧
    (handleCommand extTest (mkModel [⟨"user", "hi"⟩]) "/delete").err =
      some "no messages to delete" := by decide

/-!
## Command argument validation (`/temp`, `/system`)
-/

/-- C7: every argument-validation failure of `/temp` — wrong arity, a
non-numeric value, or a temperature outside `[0, 2]` — and the missing
argument of `/system` produce their own distinct validation errors and
mutate no state: the history and the client temperature are unchanged. -/
theorem temp_validation_no_mutation (ext : ExtCalls) (m : ChatModel) (s : String)
    (args : List String) (hp : ParseCommand s = .ok ⟨"temp", args⟩) :
    (args.length ≠ 1 →
      (handleCommand ext m s).messages = m.messages ∧
      (handleCommand ext m s).client.temperature = m.client.temperature ∧
      (handleCommand ext m s).err.isSome = true) ∧
    (∀ a, args = [a] → ext.parseFloat a = none →
      (handleCommand ext m s).messages = m.messages ∧
      (handleCommand ext m s).client.temperature = m.client.temperature ∧
      (handleCommand ext m s).err = some ("invalid float value: " ++ a)) ∧
    (∀ a t, args = [a] → ext.parseFloat a = some t → (t < 0 ∨ 2 < t) →
      (handleCommand ext m s).messages = m.messages ∧
      (handleCommand ext m s).client.temperature = m.client.temperature ∧
      (handleCommand ext m s).err = some "temperature must be between 0 and 2") ∧
    (∀ s2, ParseCommand s2 = .ok ⟨"system", ([] : List String)⟩ →
      (handleCommand ext m s2).messages = m.messages ∧
      (handleCommand ext m s2).systemPrompt = m.systemPrompt ∧
      (handleCommand ext m s2).err =
        some "command /system requires at least 1 argument(s)") := by
  have he : handleCommand ext m s = execCommand ext m s ⟨"temp", args⟩ := by
    unfold handleCommand
    rw [hp]
  have hx : execCommand ext m s ⟨"temp", args⟩ =
      (match ValidateArgs ⟨"temp", args⟩ 1 1 with
       | some e => { m with err := some e }
       | none =>
         match GetFloatArg ext.parseFloat ⟨"temp", args⟩ 0 with
         | .error e => { m with err := some e }
         | .ok temp =>
           if temp < 0 ∨ 2 < temp then
             { m with err := some "temperature must be between 0 and 2" }
           else
             finishCmd { m with
               client := { m.client with temperature := temp },
               err := none,
               messages := m.messages ++
                 [⟨"system", "Temperature set to " ++ ext.formatFloat2 temp⟩] } s) := by
    simp only [execCommand]
    rw [if_neg (by decide), if_neg (by decide), if_neg (by decide), if_neg (by decide),
      if_neg (by decide), if_pos trivial]
  refine ⟨?_, ?_, ?_, ?_⟩
  · intro hlen
    have hva : ∃ msg, ValidateArgs ⟨"temp", args⟩ 1 1 = some msg := by
      simp only [ValidateArgs]
      rcases Nat.lt_or_ge args.length 1 with hl | hl
      · exact ⟨"command /" ++ "temp" ++ " requires at least " ++ toString (1 : ℤ) ++
          " argument(s)", if_pos (by exact_mod_cast hl)⟩
      · have h2' : 1 < args.length := by omega
        exact ⟨"command /" ++ "temp" ++ " accepts at most " ++ toString (1 : ℤ) ++
          " argument(s)",
          by rw [if_neg (show ¬((args.length : ℤ) < 1) from by omega),
            if_pos (show (0 : ℤ) < 1 ∧ (1 : ℤ) < (args.length : ℤ) from
              ⟨by norm_num, by exact_mod_cast h2'⟩)]⟩
    obtain ⟨msg, hmsg⟩ := hva
    have hstep : execCommand ext m s ⟨"temp", args⟩ = { m with err := some msg } := by
      rw [hx, hmsg]
    rw [he, hstep]
    exact ⟨rfl, rfl, rfl⟩
  · rintro a rfl hpf
    have hva : ValidateArgs ⟨"temp", [a]⟩ 1 1 = none := by
      simp [ValidateArgs]
    have hg : GetFloatArg ext.parseFloat ⟨"temp", [a]⟩ 0 =
        .error ("invalid float value: " ++ a) := by
      show (match ext.parseFloat a with
        | none => (Except.error ("invalid float value: " ++ a) : Except String ℚ)
        | some v => Except.ok v) = _
      rw [hpf]
    have hstep : execCommand ext m s ⟨"temp", [a]⟩ =
        { m with err := some ("invalid float value: " ++ a) } := by
      rw [hx, hva, hg]
    rw [he, hstep]
    exact ⟨rfl, rfl, rfl⟩
  · rintro a t rfl hpf hrange
    have hva : ValidateArgs ⟨"temp", [a]⟩ 1 1 = none := by
      simp [ValidateArgs]
    have hg : GetFloatArg ext.parseFloat ⟨"temp", [a]⟩ 0 = .ok t := by
      show (match ext.parseFloat a with
        | none => (Except.error ("invalid float value: " ++ a) : Except String ℚ)
        | some v => Except.ok v) = _
      rw [hpf]
    have hstep : execCommand ext m s ⟨"temp", [a]⟩ =
        { m with err := some "temperature must be between 0 and 2" } := by
      rw [hx, hva, hg]
      exact if_pos hrange
    rw [he, hstep]
    exact ⟨rfl, rfl, rfl⟩
  · intro s2 hp2
    have he2 : handleCommand ext m s2 = execCommand ext m s2 ⟨"system", []⟩ := by
      unfold handleCommand
      rw [hp2]
    have hx2 : execCommand ext m s2 ⟨"system", []⟩ =
        { m with err := some "command /system requires at least 1 argument(s)" } := by
      simp only [execCommand]
      rw [if_neg (by decide), if_neg (by decide), if_neg (by decide), if_neg (by decide),
        if_neg (by decide), if_neg (by decide), if_pos trivial]
      rw [show ValidateArgs ⟨"system", []⟩ 1 0 =
        some "command /system requires at least 1 argument(s)" from rfl]
    rw [he2, hx2]
    exact ⟨rfl, rfl, rfl⟩

/-- C7 witness: the spec's scenario `"/temp 3"` — parses, is numeric, but
fails the 0–2 range check; nothing is mutated. -/
theorem temp_validation_witness :
    ParseCommand "/temp 3" = .ok ⟨"temp", ["3"]⟩ ∧
    ((handleCommand extTest (mkModel []) "/temp 3").messages = (mkModel []).messages ∧
      (handleCommand extTest (mkModel []) "/temp 3").client.temperature =
        (mkModel []).client.temperature ∧
      (handleCommand extTest (mkModel []) "/temp 3").err =
        some "temperature must be between 0 and 2") :=
  ⟨rfl, (temp_validation_no_mutation extTest (mkModel []) "/temp 3" ["3"] rfl).2.2.1
    "3" 3 rfl (by decide) (by decide)⟩

/-!
## The system-message invariant
-/

theorem sysInv_append (msgs : List Message) (x : Message)
    (hinv : sysInv msgs = true) (hx : (x.role == "system") = false) :
    sysInv (msgs ++ [x]) = true := by
  unfold sysInv at hinv ⊢
  cases msgs with
  | nil => simp [bne, hx]
  | cons a t =>
    have h2 : ((a :: (t ++ [x])).drop 1) = t ++ [x] := rfl
    rw [List.cons_append, h2, List.all_append]
    have h1 : ((a :: t).drop 1) = t := rfl
    rw [h1] at hinv
    rw [hinv]
    simp [bne, hx]

theorem sysInv_take (msgs : List Message) (n : ℕ) (hinv : sysInv msgs = true) :
    sysInv (msgs.take n) = true := by
  unfold sysInv at hinv ⊢
  rw [List.drop_take]
  rw [List.all_eq_true] at hinv ⊢
  intro x hx
  exact hinv x (List.take_subset _ _ hx)

/-- C8 (amended): only index 0 of the history may hold a `system`-role
message, and this invariant is preserved by every modelled event and by
every command except `/temp` and `/copy` — whose success paths append a
`system`-role notice at the end of the history, violating it. -/
theorem system_invariant_preserved (ext : ExtCalls) (m : ChatModel)
    (hinv : sysInv m.messages = true) :
    (∀ s, notTempCopy s = true → sysInv (handleCommand ext m s).messages = true) ∧
    (∀ c, sysInv (update ext m (.streamChunk c)).messages = true) ∧
    (∀ stats, sysInv (update ext m (.streamComplete stats)).messages = true) ∧
    (∀ e, sysInv (update ext m (.errorMsg e)).messages = true) ∧
    (∀ cfg, sysInv (update ext m (.configReloaded cfg)).messages = true) ∧
    (∀ ch stats, sysInv (update ext m (.streamStart ch stats)).messages = true) ∧
    sysInv (update ext m .keyCtrlC).messages = true ∧
    (IsCommand (goTrimSpace m.inputValue) = false →
      sysInv (update ext m .keyEnter).messages = true) := by
  refine ⟨?_, ?_, ?_, ?_, ?_, ?_, ?_, ?_⟩
  · intro s hnc
    cases hps : ParseCommand s with
    | error e =>
      have heq : handleCommand ext m s = { m with err := some e } := by
        unfold handleCommand
        rw [hps]
      rw [heq]
      exact hinv
    | ok c =>
      have heq : handleCommand ext m s = execCommand ext m s c := by
        unfold handleCommand
        rw [hps]
      unfold notTempCopy at hnc
      rw [hps, Bool.and_eq_true, Bool.not_eq_true', Bool.not_eq_true'] at hnc
      obtain ⟨name, args⟩ := c
      have hnc1 : name ≠ "temp" := by simpa using hnc.1
      have hnc2 : name ≠ "copy" := by simpa using hnc.2
      rw [heq]
      simp only [execCommand]
      by_cases h1 : name = "help"
      · rw [if_pos h1]
        exact sysInv_append _ _ hinv rfl
      rw [if_neg h1]
      by_cases h2 : name = "new" ∨ name = "clear"
      · rw [if_pos h2]
        by_cases hsp : m.systemPrompt ≠ ""
        · rw [if_pos hsp]
          exact rfl
        · rw [if_neg hsp]
          exact rfl
      rw [if_neg h2]
      by_cases h3 : name = "reload"
      · rw [if_pos h3]
        exact hinv
      rw [if_neg h3]
      by_cases h4 : name = "delete"
      · rw [if_pos h4]
        by_cases hlen : 2 ≤ m.messages.length
        · rw [if_pos hlen]
          by_cases hrole : (m.messages.getLastD ⟨"", ""⟩).role = "assistant"
          · rw [if_pos hrole]
            exact sysInv_take _ _ hinv
          · rw [if_neg hrole]
            exact sysInv_take _ _ hinv
        · rw [if_neg hlen]
          exact hinv
      rw [if_neg h4]
      by_cases h5 : name = "stats"
      · rw [if_pos h5]
        exact hinv
      rw [if_neg h5]
      by_cases h6 : name = "temp"
      · exact absurd h6 hnc1
      rw [if_neg h6]
      by_cases h7 : name = "system"
      · rw [if_pos h7]
        cases hva : ValidateArgs ⟨name, args⟩ 1 0 with
        | some e => exact hinv
        | none =>
          cases hmm : m.messages with
          | nil => exact rfl
          | cons msg0 rest =>
            have hinv2 : sysInv (msg0 :: rest) = true := by
              rw [← hmm]
              exact hinv
            by_cases hr : msg0.role = "system"
            · simp only [hr, if_true]
              exact hinv2
            · simp only [hr, if_false]
              have hrest : rest.all (fun msg => msg.role != "system") = true := hinv2
              show (msg0 :: rest).all (fun msg => msg.role != "system") = true
              rw [List.all_cons, hrest, Bool.and_true]
              exact bne_iff_ne.mpr hr
      rw [if_neg h7]
      by_cases h8 : name = "copy"
      · exact absurd h8 hnc2
      rw [if_neg h8]
      by_cases h9 : name = "multiline"
      · rw [if_pos h9]
        exact hinv
      rw [if_neg h9]
      by_cases h10 : name = "exit"
      · rw [if_pos h10]
        exact hinv
      rw [if_neg h10]
      exact hinv
  · intro c
    simp only [update]
    split_ifs with hA hB hC
    · exact hinv
    · exact sysInv_append _ _ hinv rfl
    · exact hinv
    · exact hinv
  · intro stats
    simp only [update]
    split_ifs with hA
    · exact sysInv_append _ _ hinv rfl
    · exact hinv
  · intro e
    exact hinv
  · intro cfg
    exact hinv
  · intro ch stats
    exact hinv
  · simp only [update]
    split_ifs with hA
    · exact hinv
    · exact hinv
  · intro hic
    by_cases hstr : m.streaming = true
    · simp only [update]
      rw [if_pos hstr]
      exact hinv
    · simp only [update]
      rw [if_neg hstr]
      by_cases hemp : goTrimSpace m.inputValue = ""
      · rw [if_pos hemp]
        exact hinv
      · rw [if_neg hemp, hic]
        have hinner : (if false = true ∧ m.suggestions ≠ [] then
            "/" ++ (m.suggestions.getD m.selectedSuggestion ⟨"", "", ""⟩).name
          else goTrimSpace m.inputValue) = goTrimSpace m.inputValue :=
          if_neg (fun hc => Bool.false_ne_true hc.1)
        rw [hinner, hic, if_neg Bool.false_ne_true]
        exact sysInv_append _ _ hinv rfl

/-- C8 witness: from a valid one-message history, `/system` and a `Done`
commit both preserve the invariant. -/
theorem system_invariant_preserved_witness :
    sysInv (mkModel [⟨"system", "p"⟩]).messages = true ∧
    notTempCopy "/system hello" = true ∧
    sysInv (handleCommand extTest (mkModel [⟨"system", "p"⟩]) "/system hello").messages = true ∧
    sysInv (update extTest (mkModel [⟨"system", "p"⟩])
      (.streamChunk { done := true })).messages = true :=
  ⟨by decide, by decide,
    (system_invariant_preserved extTest (mkModel [⟨"system", "p"⟩]) (by decide)).1
      "/system hello" (by decide),
    (system_invariant_preserved extTest (mkModel [⟨"system", "p"⟩]) (by decide)).2.1
      { done := true }⟩

/-- C8 counterexample: a successful `/temp 1` appends the informational
notice as a `system`-role message at the end of the history, so the
history then holds a second system message away from index 0; the claim
that every command handler preserves the invariant is false. -/
theorem temp_breaks_system_invariant :
    sysInv (mkModel [⟨"system", "p"⟩]).messages = true ∧
    sysInv (handleCommand extTest (mkModel [⟨"system", "p"⟩]) "/temp 1").messages = false := by
  decide
